import Mathlib

/-!
Shallow embedding of the `arping` Go library (package `arping`):
`arping.go` (public ping / gratuitous-arp workflows, option handling,
address validation), `netutils.go` (interface selection) and
`options.go` (the option directives), together with the parts of their
environment they consume (Go `net` interface enumeration, `net.IP.To4`,
`net.IPNet.Contains`).  The platform raw-socket session and the ARP
datagram codec are not among the provided source files; they are
modelled from the specification where noted.
-/

namespace Arping

/-- A Go byte slice, one `Nat` per byte. -/
abbrev Bytes := List Nat

/-- Go `net.IP`: a byte slice; the nil IP is the empty list. -/
abbrev GoIP := List Nat

/-- Go `time.Duration`: a count of nanoseconds. -/
abbrev GoDuration := Int

/-- A timestamp (`time.Time`) reduced to nanoseconds on a clock. -/
abbrev GoTime := Int

/-- Go `net.IPv4len`. -/
def IPv4len : Nat := 4

/-- Go `net.IPv6len`. -/
def IPv6len : Nat := 16

/-- Go `net.IP.To4`: the 4-byte form of an IPv4 address (a 4-byte slice,
or a 16-byte v4-mapped slice), nil (the empty list) otherwise. -/
def ipTo4 (ip : GoIP) : GoIP :=
  if ip.length = IPv4len then ip
  else if ip.length = IPv6len ∧ ip.take 10 = List.replicate 10 0 ∧
      (ip.drop 10).take 2 = [0xff, 0xff] then ip.drop 12
  else []

/-- The errors the embedded code produces or passes along.  Transport
errors (socket open / send / receive failures) are opaque to this core
and carried as `transportError`. -/
inductive GoError where
  | invalidV4 (ip : GoIP)
  | errTimeout
  | errNoUsableInterface
  | ifaceCantReach (ifaceName : String) (ip : GoIP)
  | noSuchInterface (name : String)
  | transportError (msg : String)
deriving DecidableEq, Repr

/-- The rendered text of each error, as the Go code formats it.  The
rendering of an IP value (Go `net.IP.String`, used by the `%s` verbs)
is log-output formatting, an external collaborator here, so it is a
parameter. -/
def GoError.message (render : GoIP → String) : GoError → String
  | .invalidV4 ip => "not a valid v4 Address: " ++ render ip
  | .errTimeout => "timeout"
  | .errNoUsableInterface => "no usable interface found"
  | .ifaceCantReach n ip =>
      "iface: '" ++ n ++ "' can't reach ip: '" ++ render ip ++ "'"
  | .noSuchInterface _ => "route ip+net: no such network interface"
  | .transportError msg => msg

/-- Go `validateIP` (arping.go): the argument must be a valid IPv4
address, i.e. its `To4` form must have length `net.IPv4len`. -/
def validateIP (ip : GoIP) : Except GoError Unit :=
  if (ipTo4 ip).length ≠ IPv4len then .error (.invalidV4 ip)
  else .ok ()

/-- Go `net.IPNet`: an address with its network mask. -/
structure IPNet where
  ip : GoIP
  mask : Bytes
deriving DecidableEq, Repr

/-- One element of the list Go `Interface.Addrs` returns: either a
`*net.IPNet` (the case the code uses) or some other address kind,
which the type assertion in `findIpInNetworkFromIface` skips. -/
inductive NetAddr where
  | ipNet (n : IPNet)
  | other
deriving DecidableEq, Repr

/-- Go `net.networkNumberAndMask`: the network number of an `IPNet` in
its canonical length together with a mask of the same length, or none
when the lengths are unusable. -/
def networkNumberAndMask (n : IPNet) : Option (GoIP × Bytes) :=
  let ip4 := ipTo4 n.ip
  let ip := if ip4.length = IPv4len then ip4 else n.ip
  if ip4.length ≠ IPv4len ∧ n.ip.length ≠ IPv6len then none
  else if n.mask.length = IPv4len then
    (if ip.length = IPv4len then some (ip, n.mask) else none)
  else if n.mask.length = IPv6len then
    (if ip.length = IPv4len then some (ip, n.mask.drop 12) else some (ip, n.mask))
  else none

/-- The byte-wise loop of Go `net.IPNet.Contains`: each address byte
masked must agree with the masked network byte. -/
def containsLoop : GoIP → Bytes → GoIP → Bool
  | [], _, _ => true
  | _ :: _, _, [] => false
  | _ :: _, [], _ :: _ => false
  | nb :: ns, mb :: ms, ib :: ps =>
      (Nat.land nb mb == Nat.land ib mb) && containsLoop ns ms ps

/-- Go `net.IPNet.Contains`. -/
def ipnetContains (n : IPNet) (ipArg : GoIP) : Bool :=
  let nm := (networkNumberAndMask n).getD ([], [])
  let ip := if (ipTo4 ipArg).length = IPv4len then ipTo4 ipArg else ipArg
  if ip.length ≠ nm.1.length then false else containsLoop nm.1 nm.2 ip

/-- Decidable equality for `Except`, needed to derive it for values
holding the enumeration outcomes below. -/
instance {ε α : Type} [DecidableEq ε] [DecidableEq α] : DecidableEq (Except ε α) := by
  intro a b
  cases a <;> cases b
  case error.error x y =>
    exact if h : x = y then .isTrue (by rw [h]) else .isFalse (by intro q; injection q; exact h (by assumption))
  case ok.ok x y =>
    exact if h : x = y then .isTrue (by rw [h]) else .isFalse (by intro q; injection q; exact h (by assumption))
  case error.ok x y => exact .isFalse (by intro q; exact Except.noConfusion q)
  case ok.error x y => exact .isFalse (by intro q; exact Except.noConfusion q)

/-- Go `net.Interface`, with the outcome of its `Addrs()` call attached
(interface enumeration is an external collaborator; each interface
carries what the OS would answer). `flags` bit 0 is `net.FlagUp`. -/
structure Interface where
  name : String
  hardwareAddr : Bytes
  flags : Nat
  addrs : Except GoError (List NetAddr)
deriving DecidableEq

/-- The loop of Go `findIpInNetworkFromIface` (netutils.go) over the
addresses of one interface: the first `*net.IPNet` containing `dstIp`
yields its address; otherwise the iface-cannot-reach error. -/
def findIpLoop (ifaceName : String) (dstIp : GoIP) : List NetAddr → Except GoError GoIP
  | [] => .error (.ifaceCantReach ifaceName dstIp)
  | NetAddr.ipNet n :: rest =>
      if ipnetContains n dstIp then .ok n.ip else findIpLoop ifaceName dstIp rest
  | NetAddr.other :: rest => findIpLoop ifaceName dstIp rest

/-- Go `findIpInNetworkFromIface` (netutils.go): an `Addrs()` failure is
returned as is, otherwise the loop over the address list runs. -/
def findIpInNetworkFromIface (dstIp : GoIP) (iface : Interface) : Except GoError GoIP :=
  match iface.addrs with
  | .error e => .error e
  | .ok addrs => findIpLoop iface.name dstIp addrs

/-- Go `isDown` (closure in `findUsableInterfaceForNetwork`):
`iface.Flags&1 == 0`. -/
def isDown (iface : Interface) : Bool := iface.flags.land 1 == 0

/-- Go `hasAddressInNetwork` (closure in `findUsableInterfaceForNetwork`). -/
def hasAddressInNetwork (dstIp : GoIP) (iface : Interface) : Bool :=
  match findIpInNetworkFromIface dstIp iface with
  | .error _ => false
  | .ok _ => true

/-- The loop of Go `findUsableInterfaceForNetwork` (netutils.go) over
the enumerated interfaces: skip the down ones, skip those without an
address in the destination network, return the first remaining one;
the no-usable-interface error when none remains. -/
def findUsableLoop (dstIp : GoIP) : List Interface → Except GoError Interface
  | [] => .error .errNoUsableInterface
  | iface :: rest =>
      if isDown iface then findUsableLoop dstIp rest
      else if !hasAddressInNetwork dstIp iface then findUsableLoop dstIp rest
      else .ok iface

/-- Go `findUsableInterfaceForNetwork` (netutils.go); the result of the
`net.Interfaces()` enumeration is the external collaborator and is
passed in. -/
def findUsableInterfaceForNetwork (dstIp : GoIP)
    (ifacesResult : Except GoError (List Interface)) : Except GoError Interface :=
  match ifacesResult with
  | .error e => .error e
  | .ok ifaces => findUsableLoop dstIp ifaces

/-- The initial value of the package-level `timeout` variable
(arping.go): 500 milliseconds, in nanoseconds. -/
def timeoutGlobal : GoDuration := 500 * 1000000

/-- Go `options` (options.go): the effective configuration of one call. -/
structure Options where
  iface : Option Interface
  sourceIP : GoIP
  timeout : GoDuration
deriving DecidableEq

/-- Go `newOptions` (options.go): no interface, nil source IP, the
package-level default timeout. -/
def newOptions : Options :=
  { iface := none, sourceIP := [], timeout := timeoutGlobal }

/-- The environment the public operations consume: the interface table
`net.InterfaceByName` resolves names against, and the outcome of one
`net.Interfaces()` enumeration. -/
structure Env where
  interfacesByName : List Interface
  interfaces : Except GoError (List Interface)

/-- Go `net.InterfaceByName` over the environment table: the interface
of that name, or the no-such-interface error. -/
def interfaceByName (env : Env) (n : String) : Except GoError Interface :=
  match env.interfacesByName.find? (fun i => i.name == n) with
  | some i => .ok i
  | none => .error (.noSuchInterface n)

/-- Go `Option` (options.go): the four directive kinds, one per
implementation of the `Option` interface (`ifaceName`, `netInterface`,
`netIP`, `duration`). -/
inductive OptionDirective where
  | ifaceName (n : String)
  | netInterface (i : Interface)
  | netIP (ip : GoIP)
  | duration (d : GoDuration)

/-- Go `WithIfaceByName` (options.go). -/
def WithIfaceByName (n : String) : OptionDirective := .ifaceName n

/-- Go `WithIface` (options.go). -/
def WithIface (i : Interface) : OptionDirective := .netInterface i

/-- Go `WithSourceIP` (options.go). -/
def WithSourceIP (ip : GoIP) : OptionDirective := .netIP ip

/-- Go `WithTimeout` (options.go). -/
def WithTimeout (d : GoDuration) : OptionDirective := .duration d

/-- The `apply` method of each directive (options.go): `ifaceName`
resolves the name (and can fail), the other three just overwrite their
field of the draft configuration. -/
def applyOption (env : Env) : OptionDirective → Options → Except GoError Options
  | .ifaceName n, opts =>
      match interfaceByName env n with
      | .error e => .error e
      | .ok i => .ok { opts with iface := some i }
  | .netInterface i, opts => .ok { opts with iface := some i }
  | .netIP ip, opts => .ok { opts with sourceIP := ip }
  | .duration d, opts => .ok { opts with timeout := d }

/-- The option loop of `PingWithOptions` and `GratuitousArpWithOptions`
(arping.go): apply each directive in caller order, returning the first
failure. -/
def applyOptions (env : Env) : Options → List OptionDirective → Except GoError Options
  | opts, [] => .ok opts
  | opts, o :: rest =>
      match applyOption env o opts with
      | .error e => .error e
      | .ok opts' => applyOptions env opts' rest

/-- Modelled from the spec: the ARP datagram value of the Datagram
Codec (its source file is not among the provided files).  Spec section 3:
hardware-type, protocol-type, the two address lengths, opcode
(Request=1, Reply=2) and the four addresses. -/
structure ArpDatagram where
  hardwareType : Nat
  protocolType : Nat
  hwAddrLen : Nat
  protoAddrLen : Nat
  opcode : Nat
  senderMac : Bytes
  senderIp : GoIP
  targetMac : Bytes
  targetIp : GoIP
deriving DecidableEq, Repr

/-- ARP opcode of a request. -/
def arpRequestOpcode : Nat := 1

/-- ARP opcode of a reply. -/
def arpReplyOpcode : Nat := 2

/-- Modelled from the spec: `newArpRequest` of the Datagram Codec (its
source file is not among the provided files).  It builds a Request
datagram with the Ethernet/IPv4 constants and the four addresses as
given. -/
def newArpRequest (srcMac : Bytes) (srcIp : GoIP) (dstMac : Bytes) (dstIp : GoIP) :
    ArpDatagram :=
  { hardwareType := 1, protocolType := 0x0800, hwAddrLen := 6, protoAddrLen := 4,
    opcode := arpRequestOpcode,
    senderMac := srcMac, senderIp := srcIp, targetMac := dstMac, targetIp := dstIp }

/-- Modelled from the spec: `isResponseOf` of the Datagram Codec (its
source file is not among the provided files).  Spec section 4.1:
candidate.opcode == Reply and candidate.senderProtocolAddress ==
original.targetProtocolAddress. -/
def ArpDatagram.IsResponseOf (response request : ArpDatagram) : Bool :=
  response.opcode == arpReplyOpcode && response.senderIp == request.targetIp

/-- Accessor `SenderMac` of the codec. -/
def ArpDatagram.SenderMac (d : ArpDatagram) : Bytes := d.senderMac

/-- Accessor `SenderIP` of the codec. -/
def ArpDatagram.SenderIP (d : ArpDatagram) : GoIP := d.senderIp

/-- The broadcast hardware address `ff:ff:ff:ff:ff:ff` (arping.go). -/
def broadcastMac : Bytes := [0xff, 0xff, 0xff, 0xff, 0xff, 0xff]

/-- Modelled from the spec: the behaviour of one raw-socket session
(the platform socket files are not among the provided files).  The
world records the outcome of the open, the outcome and timestamp of
the one send, the successive outcomes of the blocking receive calls,
and which side of the select fires first (`timerWins` true when the
`time.After` branch is chosen). -/
structure SockWorld where
  openResult : Except GoError Unit
  sendResult : Except GoError GoTime
  recvEvents : List (Except GoError (ArpDatagram × GoTime))
  timerWins : Bool

/-- Go `PingResult` (local type in `PingWithOptions`): what the worker
goroutine writes to the result channel. -/
structure PingResult where
  mac : Option Bytes
  duration : GoDuration
  err : Option GoError
deriving DecidableEq, Repr

/-- The receive loop of the worker goroutine in `PingWithOptions`
(arping.go): a receive error is delivered as a failure; a datagram
matching `IsResponseOf` is delivered as the success with elapsed =
receive time minus send time; any other datagram is discarded and the
loop continues.  Also returns how many receive calls were consumed;
an exhausted event list means the worker is still blocked. -/
def workerLoop (request : ArpDatagram) (sendTime : GoTime) :
    List (Except GoError (ArpDatagram × GoTime)) → Option PingResult × Nat
  | [] => (none, 0)
  | .error e :: _ => (some ⟨none, 0, some e⟩, 1)
  | .ok (response, receiveTime) :: rest =>
      if response.IsResponseOf request then
        (some ⟨some response.SenderMac, receiveTime - sendTime, none⟩, 1)
      else
        let r := workerLoop request sendTime rest
        (r.1, r.2 + 1)

/-- The whole worker goroutine of `PingWithOptions` (arping.go): a send
failure is delivered at once (zero receives); otherwise the receive
loop runs from the send timestamp. -/
def workerResult (request : ArpDatagram) (sendResult : Except GoError GoTime)
    (events : List (Except GoError (ArpDatagram × GoTime))) : Option PingResult × Nat :=
  match sendResult with
  | .error e => (some ⟨none, 0, some e⟩, 0)
  | .ok t0 => workerLoop request t0 events

/-- Capacity of `pingResultChan` in `PingWithOptions` (arping.go line
`make(chan PingResult, 1)`). -/
def pingResultChanCapacity : Nat := 1

/-- Channel sends the worker goroutine performs: one per delivered
result (each terminal branch of the goroutine writes exactly once). -/
def workerChanSends (deliveredResult : Option PingResult) : Nat :=
  match deliveredResult with
  | some _ => 1
  | none => 0

/-- What one ping call returns and does: the Go return triple, whether
the session was opened, how often `deinitialize` ran, how many sends
and consumed receives the session saw, and the request datagram that
was built (none when the call failed before building it). -/
structure PingOutcome where
  mac : Option Bytes
  duration : GoDuration
  err : Option GoError
  opened : Bool
  closeCount : Nat
  sendCount : Nat
  recvCount : Nat
  builtRequest : Option ArpDatagram
deriving DecidableEq, Repr

/-- A ping outcome that failed before opening the session. -/
def PingOutcome.earlyErr (e : GoError) : PingOutcome :=
  ⟨none, 0, some e, false, 0, 0, 0, none⟩

/-- The source-address step of `PingWithOptions` (arping.go): when no
source IP was configured, derive one from the interface via
`findIPInNetworkFromIface`; otherwise keep the configured one. -/
def resolveSourceIP (dstIP : GoIP) (iface : Interface) (src : GoIP) : Except GoError GoIP :=
  if src.length = 0 then findIpInNetworkFromIface dstIP iface else .ok src

/-- The select block of `PingWithOptions` (arping.go): the worker
(already sent, looping on receive) races the `time.After` timer.  When
the timer fires first — or the worker never delivers within the
recorded events — the result is the timeout triple and the session is
closed explicitly and then again by the deferred close; when the
worker result arrives first it is returned as is, the deferred close
running once. -/
def pingAwait (world : SockWorld) (request : ArpDatagram) : PingOutcome :=
  match world.timerWins, (workerResult request world.sendResult world.recvEvents).1 with
  | true, _ => ⟨none, 0, some .errTimeout, true, 2, 1,
      (workerResult request world.sendResult world.recvEvents).2, some request⟩
  | false, none => ⟨none, 0, some .errTimeout, true, 2, 1,
      (workerResult request world.sendResult world.recvEvents).2, some request⟩
  | false, some r => ⟨r.mac, r.duration, r.err, true, 1, 1,
      (workerResult request world.sendResult world.recvEvents).2, some request⟩

/-- Go `PingWithOptions` (arping.go): validate the destination, fold
the option directives, require a configured interface, resolve the
source address, build the request, open the session, race the worker
goroutine against the timer. -/
def PingWithOptions (env : Env) (world : SockWorld) (dstIP : GoIP)
    (opts : List OptionDirective) : PingOutcome :=
  match validateIP dstIP with
  | .error e => .earlyErr e
  | .ok _ =>
    match applyOptions env newOptions opts with
    | .error e => .earlyErr e
    | .ok ops =>
      match ops.iface with
      | none => .earlyErr .errNoUsableInterface
      | some iface =>
        match resolveSourceIP dstIP iface ops.sourceIP with
        | .error e => .earlyErr e
        | .ok srcIP =>
          match world.openResult with
          | .error e => { PingOutcome.earlyErr e with
              builtRequest := some (newArpRequest iface.hardwareAddr srcIP broadcastMac dstIP) }
          | .ok _ =>
            pingAwait world (newArpRequest iface.hardwareAddr srcIP broadcastMac dstIP)

/-- Go `PingOverIface` (arping.go): delegate with a `WithIface`
directive. -/
def PingOverIface (env : Env) (world : SockWorld) (dstIP : GoIP) (iface : Interface) :
    PingOutcome :=
  PingWithOptions env world dstIP [WithIface iface]

/-- Go `PingOverIfaceByName` (arping.go): delegate with a
`WithIfaceByName` directive. -/
def PingOverIfaceByName (env : Env) (world : SockWorld) (dstIP : GoIP) (n : String) :
    PingOutcome :=
  PingWithOptions env world dstIP [WithIfaceByName n]

/-- Go `Ping` (arping.go): validate the destination, pick an interface
by destination-based scan of the enumeration, then delegate to
`PingOverIface`. -/
def Ping (env : Env) (world : SockWorld) (dstIP : GoIP) : PingOutcome :=
  match validateIP dstIP with
  | .error e => .earlyErr e
  | .ok _ =>
    match findUsableInterfaceForNetwork dstIP env.interfaces with
    | .error e => .earlyErr e
    | .ok iface => PingOverIface env world dstIP iface

/-- What one gratuitous-arp call returns and does.  There is no receive
loop on this path, so the outcome has no receive count at all. -/
structure GratOutcome where
  err : Option GoError
  opened : Bool
  closeCount : Nat
  sendCount : Nat
  builtRequest : Option ArpDatagram
deriving DecidableEq, Repr

/-- A gratuitous-arp outcome that failed before opening the session. -/
def GratOutcome.earlyErr (e : GoError) : GratOutcome :=
  ⟨some e, false, 0, 0, none⟩

/-- The interface step of `GratuitousArpWithOptions` (arping.go): the
configured interface if any, else destination-based selection around
the source address. -/
def resolveGratIface (env : Env) (ops : Options) : Except GoError Interface :=
  match ops.iface with
  | some i => .ok i
  | none => findUsableInterfaceForNetwork ops.sourceIP env.interfaces

/-- The body of `GratuitousArpWithOptions` after the option fold
(arping.go): validate the source, resolve the interface, build the
request with sender=target=source and broadcast target hardware
address, open the session, send once, return the send error if any. -/
def gratFromOps (env : Env) (world : SockWorld) (ops : Options) : GratOutcome :=
  match validateIP ops.sourceIP with
  | .error e => .earlyErr e
  | .ok _ =>
    match resolveGratIface env ops with
    | .error e => .earlyErr e
    | .ok iface =>
      let request := newArpRequest iface.hardwareAddr ops.sourceIP broadcastMac ops.sourceIP
      match world.openResult with
      | .error e => { GratOutcome.earlyErr e with builtRequest := some request }
      | .ok _ =>
        match world.sendResult with
        | .error e => ⟨some e, true, 1, 1, some request⟩
        | .ok _ => ⟨none, true, 1, 1, some request⟩

/-- Go `GratuitousArpWithOptions` (arping.go). -/
def GratuitousArpWithOptions (env : Env) (world : SockWorld)
    (opts : List OptionDirective) : GratOutcome :=
  match applyOptions env newOptions opts with
  | .error e => .earlyErr e
  | .ok ops => gratFromOps env world ops

/-- Go `GratuitousArp` (arping.go): delegate with a `WithSourceIP`
directive. -/
def GratuitousArp (env : Env) (world : SockWorld) (srcIP : GoIP) : GratOutcome :=
  GratuitousArpWithOptions env world [WithSourceIP srcIP]

/-- Go `GratuitousArpOverIfaceByName` (arping.go). -/
def GratuitousArpOverIfaceByName (env : Env) (world : SockWorld) (srcIP : GoIP)
    (n : String) : GratOutcome :=
  GratuitousArpWithOptions env world [WithSourceIP srcIP, WithIfaceByName n]

/-- Go `GratuitousArpOverIface` (arping.go). -/
def GratuitousArpOverIface (env : Env) (world : SockWorld) (srcIP : GoIP)
    (iface : Interface) : GratOutcome :=
  GratuitousArpWithOptions env world [WithSourceIP srcIP, WithIface iface]

/-- Go `net.ParseIP` applied to the string "invalid": no form parses,
so the result is the nil IP. -/
def parsedInvalidIP : GoIP := []

/-- Go `net.ParseIP` applied to the IPv6 literal "fe80::1": a 16-byte
slice that is not v4-mapped. -/
def parsedFe80IP : GoIP := [0xfe, 0x80, 0, 0, 0, 0, 0, 0, 0, 0, 0, 0, 0, 0, 0, 1]

/-! ## Concrete fixtures used by the witnesses -/

/-- A destination on the 192.168.1.0/24 network. -/
def wDstIP : GoIP := [192, 168, 1, 1]

/-- An up interface bound to 192.168.1.0/24 at 192.168.1.7. -/
def wIfaceEth0 : Interface :=
  { name := "eth0", hardwareAddr := [0x0a, 0x0b, 0x0c, 1, 2, 3], flags := 1,
    addrs := .ok [NetAddr.ipNet ⟨[192, 168, 1, 7], [255, 255, 255, 0]⟩] }

/-- The same interface with its up flag cleared. -/
def wIfaceDown : Interface := { wIfaceEth0 with name := "eth1", flags := 0 }

/-- An environment with the one up interface. -/
def wEnv : Env := ⟨[wIfaceEth0], .ok [wIfaceEth0]⟩

/-- An explicitly supplied source address distinct from the bound one. -/
def wSrcIP : GoIP := [192, 168, 1, 9]

/-- The request the ping fixtures build. -/
def wRequest : ArpDatagram := newArpRequest wIfaceEth0.hardwareAddr wSrcIP broadcastMac wDstIP

/-- A matching reply to `wRequest` from hardware address 9:9:9:9:9:9. -/
def wReply : ArpDatagram :=
  { hardwareType := 1, protocolType := 0x0800, hwAddrLen := 6, protoAddrLen := 4,
    opcode := arpReplyOpcode, senderMac := [9, 9, 9, 9, 9, 9], senderIp := wDstIP,
    targetMac := wIfaceEth0.hardwareAddr, targetIp := wSrcIP }

/-- A world where the send stamps time 1000 and the receive stream
yields one foreign datagram (the request itself, opcode 1) at 1500 and
the matching reply at 2500, with the worker winning the race. -/
def wWorld : SockWorld :=
  ⟨.ok (), .ok 1000, [.ok (wRequest, 1500), .ok (wReply, 2500)], false⟩

/-- The option list naming the interface and the source explicitly. -/
def wOpts : List OptionDirective := [WithIface wIfaceEth0, WithSourceIP wSrcIP]

/-- The configuration `wOpts` resolves to. -/
def wOps : Options := ⟨some wIfaceEth0, wSrcIP, timeoutGlobal⟩

/-! ## Shared lemmas -/

/-- An interface has an address in the destination network exactly when
`findIpInNetworkFromIface` succeeds on it. -/
theorem hasAddressInNetwork_iff (dstIp : GoIP) (i : Interface) :
    hasAddressInNetwork dstIp i = true ↔ ∃ a, findIpInNetworkFromIface dstIp i = .ok a := by
  unfold hasAddressInNetwork
  cases h : findIpInNetworkFromIface dstIp i <;> simp

/-- A success of the address loop names the address of an `IPNet` of the
list that contains the destination. -/
theorem findIpLoop_ok_mem (ifname : String) (dstIp : GoIP) :
    ∀ (addrs : List NetAddr) (a : GoIP), findIpLoop ifname dstIp addrs = .ok a →
      ∃ n, NetAddr.ipNet n ∈ addrs ∧ ipnetContains n dstIp = true ∧ a = n.ip := by
  intro addrs
  induction addrs with
  | nil => intro a h; simp [findIpLoop] at h
  | cons hd rest ih =>
    intro a h
    cases hd with
    | ipNet n =>
      by_cases hc : ipnetContains n dstIp = true
      · refine ⟨n, by simp, hc, ?_⟩
        simp [findIpLoop, hc] at h
        exact h.symm
      · simp [findIpLoop, hc] at h
        obtain ⟨m, hm, hmc, hma⟩ := ih a h
        exact ⟨m, by simp [hm], hmc, hma⟩
    | other =>
      simp [findIpLoop] at h
      obtain ⟨m, hm, hmc, hma⟩ := ih a h
      exact ⟨m, by simp [hm], hmc, hma⟩

/-- Success of the interface loop: the result is up, reachable, and the
first such element of the list. -/
theorem findUsableLoop_ok (dstIp : GoIP) :
    ∀ (ifaces : List Interface) (i : Interface), findUsableLoop dstIp ifaces = .ok i →
      isDown i = false ∧ hasAddressInNetwork dstIp i = true ∧
      ∃ pre post, ifaces = pre ++ i :: post ∧
        ∀ j ∈ pre, isDown j = true ∨ hasAddressInNetwork dstIp j = false := by
  intro ifaces
  induction ifaces with
  | nil => intro i h; simp [findUsableLoop] at h
  | cons k rest ih =>
    intro i h
    unfold findUsableLoop at h
    by_cases hd : isDown k = true
    · rw [if_pos hd] at h
      obtain ⟨h1, h2, pre, post, heq, hall⟩ := ih i h
      refine ⟨h1, h2, k :: pre, post, by rw [heq]; rfl, ?_⟩
      intro j hj
      rcases List.mem_cons.mp hj with rfl | hj
      · exact Or.inl hd
      · exact hall j hj
    · rw [if_neg hd] at h
      by_cases ha : hasAddressInNetwork dstIp k = true
      · rw [if_neg (by simp [ha])] at h
        injection h with h
        subst h
        exact ⟨by simpa using hd, ha, [], rest, rfl, by simp⟩
      · rw [if_pos (by simp [Bool.not_eq_true] at ha ⊢; exact ha)] at h
        obtain ⟨h1, h2, pre, post, heq, hall⟩ := ih i h
        refine ⟨h1, h2, k :: pre, post, by rw [heq]; rfl, ?_⟩
        intro j hj
        rcases List.mem_cons.mp hj with rfl | hj
        · exact Or.inr (by simpa using ha)
        · exact hall j hj

/-- The interface loop fails (necessarily with the no-usable-interface
error) exactly when every listed interface is down or unreachable. -/
theorem findUsableLoop_error_iff (dstIp : GoIP) :
    ∀ (ifaces : List Interface),
      findUsableLoop dstIp ifaces = .error .errNoUsableInterface ↔
        ∀ j ∈ ifaces, isDown j = true ∨ hasAddressInNetwork dstIp j = false := by
  intro ifaces
  induction ifaces with
  | nil => simp [findUsableLoop]
  | cons k rest ih =>
    unfold findUsableLoop
    by_cases hd : isDown k = true
    · rw [if_pos hd, ih]
      constructor
      · intro h j hj
        rcases List.mem_cons.mp hj with rfl | hj
        · exact Or.inl hd
        · exact h j hj
      · intro h j hj
        exact h j (List.mem_cons_of_mem _ hj)
    · rw [if_neg hd]
      by_cases ha : hasAddressInNetwork dstIp k = true
      · rw [if_neg (by simp [ha])]
        constructor
        · intro h; exact absurd h (by simp)
        · intro h
          rcases h k (by simp) with h' | h'
          · exact absurd h' hd
          · rw [ha] at h'; exact absurd h' (by simp)
      · rw [if_pos (by simp [Bool.not_eq_true] at ha ⊢; exact ha), ih]
        constructor
        · intro h j hj
          rcases List.mem_cons.mp hj with rfl | hj
          · exact Or.inr (by simpa using ha)
          · exact h j hj
        · intro h j hj
          exact h j (List.mem_cons_of_mem _ hj)

/-! ## Claim theorems -/

/-- C3: for every destination IPv4 address and every list of local
interfaces, `findUsableInterfaceForNetwork` skips each interface whose
up flag is unset, and of the remaining interfaces returns the first
one, in enumeration order, that has a bound IPv4 network containing
the destination together with the matching local address; if no
interface qualifies it fails with the no-usable-interface error. -/
theorem findUsable_first_match (dstIp : GoIP) (ifaces : List Interface) :
    (∀ i, findUsableInterfaceForNetwork dstIp (.ok ifaces) = .ok i →
      isDown i = false ∧
      (∃ a, findIpInNetworkFromIface dstIp i = .ok a ∧
        ∃ addrs n, i.addrs = .ok addrs ∧ NetAddr.ipNet n ∈ addrs ∧
          ipnetContains n dstIp = true ∧ a = n.ip) ∧
      ∃ pre post, ifaces = pre ++ i :: post ∧
        ∀ j ∈ pre, isDown j = true ∨ hasAddressInNetwork dstIp j = false) ∧
    (findUsableInterfaceForNetwork dstIp (.ok ifaces) = .error .errNoUsableInterface ↔
      ∀ j ∈ ifaces, isDown j = true ∨ hasAddressInNetwork dstIp j = false) := by
  constructor
  · intro i h
    replace h : findUsableLoop dstIp ifaces = .ok i := h
    obtain ⟨h1, h2, pre, post, heq, hall⟩ := findUsableLoop_ok dstIp ifaces i h
    obtain ⟨a, ha⟩ := (hasAddressInNetwork_iff dstIp i).mp h2
    refine ⟨h1, ⟨a, ha, ?_⟩, pre, post, heq, hall⟩
    unfold findIpInNetworkFromIface at ha
    cases haddrs : i.addrs with
    | error e => rw [haddrs] at ha; exact absurd ha (by simp)
    | ok addrs =>
      rw [haddrs] at ha
      obtain ⟨n, hn, hnc, hna⟩ := findIpLoop_ok_mem i.name dstIp addrs a ha
      exact ⟨addrs, n, rfl, hn, hnc, hna⟩
  · exact findUsableLoop_error_iff dstIp ifaces

/-- C3 witness: on a concrete two-interface list whose first entry is
down, selection returns the second entry with its bound address, and
on a list with nothing reachable it fails. -/
theorem findUsable_first_match_witness :
    (isDown wIfaceEth0 = false ∧
      (∃ a, findIpInNetworkFromIface wDstIP wIfaceEth0 = .ok a ∧
        ∃ addrs n, wIfaceEth0.addrs = .ok addrs ∧ NetAddr.ipNet n ∈ addrs ∧
          ipnetContains n wDstIP = true ∧ a = n.ip) ∧
      ∃ pre post, [wIfaceDown, wIfaceEth0] = pre ++ wIfaceEth0 :: post ∧
        ∀ j ∈ pre, isDown j = true ∨ hasAddressInNetwork wDstIP j = false) ∧
    findUsableInterfaceForNetwork wDstIP (.ok [wIfaceDown]) = .error .errNoUsableInterface := by
  constructor
  · exact (findUsable_first_match wDstIP [wIfaceDown, wIfaceEth0]).1 wIfaceEth0 (by rfl)
  · exact (findUsable_first_match wDstIP [wIfaceDown]).2.mpr (by intro j hj; simp at hj; subst hj; exact Or.inl rfl)

/-- Unfolding equation of the option fold on a nonempty list. -/
theorem applyOptions_cons (env : Env) (o : OptionDirective) (rest : List OptionDirective)
    (st : Options) :
    applyOptions env st (o :: rest) =
      match applyOption env o st with
      | .error e => .error e
      | .ok st' => applyOptions env st' rest := rfl

/-- The option fold splits over list append as a monadic bind: it is a
left-to-right fold with short-circuit on failure. -/
theorem applyOptions_append (env : Env) :
    ∀ (xs : List OptionDirective) (st : Options) (ys : List OptionDirective),
      applyOptions env st (xs ++ ys) =
        (applyOptions env st xs).bind (fun o => applyOptions env o ys) := by
  intro xs
  induction xs with
  | nil => intro st ys; rfl
  | cons o rest ih =>
    intro st ys
    rw [List.cons_append, applyOptions_cons env o (rest ++ ys) st, applyOptions_cons env o rest st]
    cases h : applyOption env o st with
    | error e => rfl
    | ok st' => exact ih st' ys

/-- C6: the effective configuration is the left-to-right fold of the
directives over the defaults (no interface, no source IP, timeout
500 ms); a later directive overwrites an earlier directive's field;
and a failing directive (such as one naming an unknown interface)
aborts the whole fold with its error. -/
theorem options_fold_last_wins :
    newOptions = ⟨none, [], 500 * 1000000⟩ ∧
    (∀ env st xs ys, applyOptions env st (xs ++ ys) =
      (applyOptions env st xs).bind (fun o => applyOptions env o ys)) ∧
    (∀ env st o rest e, applyOption env o st = .error e →
      applyOptions env st (o :: rest) = .error e) ∧
    (∀ env st xs d ops, applyOptions env st (xs ++ [WithTimeout d]) = .ok ops →
      ops.timeout = d) ∧
    (∀ env st xs ip ops, applyOptions env st (xs ++ [WithSourceIP ip]) = .ok ops →
      ops.sourceIP = ip) ∧
    (∀ env st xs i ops, applyOptions env st (xs ++ [WithIface i]) = .ok ops →
      ops.iface = some i) ∧
    (∀ env n st rest, env.interfacesByName.find? (fun i => i.name == n) = none →
      applyOptions env st (WithIfaceByName n :: rest) = .error (.noSuchInterface n)) := by
  refine ⟨rfl, fun env st xs ys => applyOptions_append env xs st ys, ?_, ?_, ?_, ?_, ?_⟩
  · intro env st o rest e h
    rw [applyOptions_cons, h]
  · intro env st xs d ops h
    rw [applyOptions_append] at h
    cases hxs : applyOptions env st xs with
    | error e => rw [hxs] at h; exact absurd h (by simp [Except.bind])
    | ok o =>
      rw [hxs] at h
      have hh : (Except.ok o : Except GoError Options).bind
          (fun o => applyOptions env o [WithTimeout d]) = .ok { o with timeout := d } := rfl
      rw [hh] at h
      injection h with h
      rw [← h]
  · intro env st xs ip ops h
    rw [applyOptions_append] at h
    cases hxs : applyOptions env st xs with
    | error e => rw [hxs] at h; exact absurd h (by simp [Except.bind])
    | ok o =>
      rw [hxs] at h
      have hh : (Except.ok o : Except GoError Options).bind
          (fun o => applyOptions env o [WithSourceIP ip]) = .ok { o with sourceIP := ip } := rfl
      rw [hh] at h
      injection h with h
      rw [← h]
  · intro env st xs i ops h
    rw [applyOptions_append] at h
    cases hxs : applyOptions env st xs with
    | error e => rw [hxs] at h; exact absurd h (by simp [Except.bind])
    | ok o =>
      rw [hxs] at h
      have hh : (Except.ok o : Except GoError Options).bind
          (fun o => applyOptions env o [WithIface i]) = .ok { o with iface := some i } := rfl
      rw [hh] at h
      injection h with h
      rw [← h]
  · intro env n st rest h
    have h2 : interfaceByName env n = .error (.noSuchInterface n) := by
      unfold interfaceByName
      rw [h]
    have h1 : applyOption env (WithIfaceByName n) st = .error (.noSuchInterface n) := by
      show (match interfaceByName env n with
        | Except.error e => Except.error e
        | Except.ok i => Except.ok { st with iface := some i }) = _
      rw [h2]
    rw [applyOptions_cons, h1]

/-- C6 witness: over the defaults, a second timeout directive
overwrites the first, and a directive naming an interface absent from
the table aborts with its error. -/
theorem options_fold_last_wins_witness :
    (∃ ops, applyOptions wEnv newOptions [WithTimeout 3, WithTimeout 9] = .ok ops ∧
      ops.timeout = 9) ∧
    applyOptions wEnv newOptions [WithIfaceByName "missing", WithTimeout 3] =
      .error (.noSuchInterface "missing") := by
  constructor
  · exact ⟨_, rfl, options_fold_last_wins.2.2.2.1 wEnv newOptions [WithTimeout 3] 9 _ rfl⟩
  · exact options_fold_last_wins.2.2.2.2.2.2 wEnv "missing" newOptions [WithTimeout 3] rfl

/-- C5: for every input IP that is not a valid IPv4 address — the nil
IP that parsing the string "invalid" yields, and the IPv6 literal
fe80::1 — both `Ping` and `GratuitousArp` fail with the
invalid-address error (whose message starts with the text "not a valid
v4 Address"), without opening a session, sending, or consulting the
environment at all. -/
theorem invalid_address_rejected :
    (∀ env world, Ping env world parsedInvalidIP = .earlyErr (.invalidV4 parsedInvalidIP)) ∧
    (∀ env world, Ping env world parsedFe80IP = .earlyErr (.invalidV4 parsedFe80IP)) ∧
    (∀ env world, GratuitousArp env world parsedInvalidIP =
      .earlyErr (.invalidV4 parsedInvalidIP)) ∧
    (∀ env world, GratuitousArp env world parsedFe80IP =
      .earlyErr (.invalidV4 parsedFe80IP)) ∧
    (∀ ip render, (ipTo4 ip).length ≠ IPv4len →
      ∃ e rest, validateIP ip = .error e ∧
        e.message render = "not a valid v4 Address: " ++ rest) ∧
    (∀ ip, (ipTo4 ip).length ≠ IPv4len → ∀ env₁ env₂ world₁ world₂,
      Ping env₁ world₁ ip = Ping env₂ world₂ ip ∧
      GratuitousArp env₁ world₁ ip = GratuitousArp env₂ world₂ ip) := by
  have hval : ∀ ip, (ipTo4 ip).length ≠ IPv4len →
      validateIP ip = .error (.invalidV4 ip) := by
    intro ip h
    unfold validateIP
    rw [if_pos h]
  have hping : ∀ ip, (ipTo4 ip).length ≠ IPv4len → ∀ env world,
      Ping env world ip = .earlyErr (.invalidV4 ip) := by
    intro ip h env world
    unfold Ping
    rw [hval ip h]
  have hgratOps : ∀ env world ops e, validateIP (Options.sourceIP ops) = .error e →
      gratFromOps env world ops = .earlyErr e := by
    intro env world ops e h
    unfold gratFromOps
    rw [h]
  have hgrat : ∀ ip, (ipTo4 ip).length ≠ IPv4len → ∀ env world,
      GratuitousArp env world ip = .earlyErr (.invalidV4 ip) := by
    intro ip h env world
    show GratuitousArpWithOptions env world [WithSourceIP ip] = _
    have hops : applyOptions env newOptions [WithSourceIP ip] =
        .ok ⟨none, ip, timeoutGlobal⟩ := rfl
    unfold GratuitousArpWithOptions
    rw [hops]
    exact hgratOps env world ⟨none, ip, timeoutGlobal⟩ _ (hval ip h)
  refine ⟨hping parsedInvalidIP (by decide), hping parsedFe80IP (by decide),
    hgrat parsedInvalidIP (by decide), hgrat parsedFe80IP (by decide), ?_, ?_⟩
  · intro ip render h
    exact ⟨.invalidV4 ip, render ip, hval ip h, rfl⟩
  · intro ip h env₁ env₂ world₁ world₂
    rw [hping ip h env₁ world₁, hping ip h env₂ world₂,
      hgrat ip h env₁ world₁, hgrat ip h env₂ world₂]
    exact ⟨rfl, rfl⟩

/-- C5 witness: the n-th conjunct instantiated on the IPv6 literal with
a concrete environment and world. -/
theorem invalid_address_rejected_witness :
    Ping wEnv wWorld parsedFe80IP = .earlyErr (.invalidV4 parsedFe80IP) ∧
    GratuitousArp wEnv wWorld parsedFe80IP = .earlyErr (.invalidV4 parsedFe80IP) := by
  exact ⟨invalid_address_rejected.2.1 wEnv wWorld, invalid_address_rejected.2.2.2.1 wEnv wWorld⟩

/-- The receive loop discards any prefix of non-matching datagrams and
terminates on the first matching reply with its sender address and the
receive-minus-send elapsed time. -/
theorem workerLoop_skips_nonmatching (request : ArpDatagram) (t0 : GoTime)
    (reply : ArpDatagram) (rt : GoTime) :
    ∀ (pre : List (Except GoError (ArpDatagram × GoTime))),
      (∀ ev ∈ pre, ∃ d t, ev = .ok (d, t) ∧ d.IsResponseOf request = false) →
      reply.IsResponseOf request = true →
      workerLoop request t0 (pre ++ [.ok (reply, rt)]) =
        (some ⟨some reply.SenderMac, rt - t0, none⟩, pre.length + 1) := by
  intro pre
  induction pre with
  | nil =>
    intro _ hm
    show workerLoop request t0 [.ok (reply, rt)] = _
    unfold workerLoop
    rw [if_pos hm]
    rfl
  | cons ev rest ih =>
    intro hpre hm
    obtain ⟨d, t, rfl, hd⟩ := hpre ev (by simp)
    show workerLoop request t0 (.ok (d, t) :: (rest ++ [.ok (reply, rt)])) = _
    unfold workerLoop
    rw [if_neg (by simp [hd])]
    rw [ih (fun e he => hpre e (List.mem_cons_of_mem _ he)) hm]
    simp [List.length_cons]

/-- Unfolding equation of `PingWithOptions` once the wait phase is
reached: all resolution steps succeeded and the session is open. -/
theorem pingWithOptions_wait_phase (env : Env) (world : SockWorld) (dstIP : GoIP)
    (opts : List OptionDirective) (ops : Options) (iface : Interface) (srcIP : GoIP)
    (hv : validateIP dstIP = .ok ())
    (hops : applyOptions env newOptions opts = .ok ops)
    (hiface : ops.iface = some iface)
    (hsrc : resolveSourceIP dstIP iface ops.sourceIP = .ok srcIP)
    (hopen : world.openResult = .ok ()) :
    PingWithOptions env world dstIP opts =
      pingAwait world (newArpRequest iface.hardwareAddr srcIP broadcastMac dstIP) := by
  simp only [PingWithOptions, hv, hops, hiface, hsrc, hopen]

/-- The select block always reports an opened session. -/
theorem pingAwait_opened (world : SockWorld) (request : ArpDatagram) :
    (pingAwait world request).opened = true := by
  unfold pingAwait
  cases world.timerWins <;>
    cases h : (workerResult request world.sendResult world.recvEvents).1 <;> rfl

/-- The select block always reports exactly one send. -/
theorem pingAwait_sendCount (world : SockWorld) (request : ArpDatagram) :
    (pingAwait world request).sendCount = 1 := by
  unfold pingAwait
  cases world.timerWins <;>
    cases h : (workerResult request world.sendResult world.recvEvents).1 <;> rfl

/-- The select block always closes the session at least once. -/
theorem pingAwait_closeCount_pos (world : SockWorld) (request : ArpDatagram) :
    1 ≤ (pingAwait world request).closeCount := by
  unfold pingAwait
  cases world.timerWins <;>
    cases h : (workerResult request world.sendResult world.recvEvents).1 <;> simp

/-- C1: when a ping call reaches the wait phase, the worker tests each
received datagram with `IsResponseOf` against the sent request,
discards every non-matching one and keeps waiting, and on the first
matching reply the call returns exactly the sender hardware address of
that reply and receive-timestamp minus send-timestamp, with no
error. -/
theorem pingWithOptions_first_matching_reply
    (env : Env) (world : SockWorld) (dstIP : GoIP) (opts : List OptionDirective)
    (ops : Options) (iface : Interface) (srcIP : GoIP) (t0 : GoTime)
    (pre : List (Except GoError (ArpDatagram × GoTime))) (reply : ArpDatagram) (rt : GoTime)
    (hv : validateIP dstIP = .ok ())
    (hops : applyOptions env newOptions opts = .ok ops)
    (hiface : ops.iface = some iface)
    (hsrc : resolveSourceIP dstIP iface ops.sourceIP = .ok srcIP)
    (hopen : world.openResult = .ok ())
    (hsend : world.sendResult = .ok t0)
    (hevents : world.recvEvents = pre ++ [.ok (reply, rt)])
    (hpre : ∀ ev ∈ pre, ∃ d t, ev = .ok (d, t) ∧
      d.IsResponseOf (newArpRequest iface.hardwareAddr srcIP broadcastMac dstIP) = false)
    (hmatch : reply.IsResponseOf (newArpRequest iface.hardwareAddr srcIP broadcastMac dstIP) = true)
    (htimer : world.timerWins = false) :
    PingWithOptions env world dstIP opts =
      ⟨some reply.SenderMac, rt - t0, none, true, 1, 1, pre.length + 1,
        some (newArpRequest iface.hardwareAddr srcIP broadcastMac dstIP)⟩ := by
  rw [pingWithOptions_wait_phase env world dstIP opts ops iface srcIP hv hops hiface hsrc hopen]
  have hw : workerResult (newArpRequest iface.hardwareAddr srcIP broadcastMac dstIP)
      world.sendResult world.recvEvents =
      (some ⟨some reply.SenderMac, rt - t0, none⟩, pre.length + 1) := by
    rw [hsend, hevents]
    show workerLoop (newArpRequest iface.hardwareAddr srcIP broadcastMac dstIP) t0
      (pre ++ [.ok (reply, rt)]) = _
    exact workerLoop_skips_nonmatching _ t0 reply rt pre hpre hmatch
  unfold pingAwait
  rw [htimer, hw]

/-- C1 witness: the concrete fixture world delivers one foreign
datagram and then the matching reply; the call returns the reply
sender 9:9:9:9:9:9 with elapsed 1500 and no error. -/
theorem pingWithOptions_first_matching_reply_witness :
    PingWithOptions wEnv wWorld wDstIP wOpts =
      ⟨some [9, 9, 9, 9, 9, 9], 1500, none, true, 1, 1, 2, some wRequest⟩ := by
  have h := pingWithOptions_first_matching_reply wEnv wWorld wDstIP wOpts wOps wIfaceEth0
    wSrcIP 1000 [.ok (wRequest, 1500)] wReply 2500 rfl rfl rfl rfl rfl rfl rfl
    (by intro ev hev
        simp only [List.mem_singleton] at hev
        exact ⟨wRequest, 1500, hev, by decide⟩)
    (by decide) rfl
  exact h.trans (by decide)

/-- A world whose send fails. -/
def wWorldSendFail : SockWorld :=
  { wWorld with sendResult := .error (.transportError "sendto: operation not permitted") }

/-- C2: if the caller-configured timeout (default 500 ms, the value
`newOptions` starts from) elapses before a matching reply or an error
is delivered, the call returns nil hardware address, zero duration and
the distinguished timeout error, closing the session on that path
(twice: once in the select branch, once deferred) as on every exit
path that opened it. -/
theorem ping_timeout_returns_errTimeout :
    (∀ env world dstIP opts ops iface srcIP,
      validateIP dstIP = .ok () →
      applyOptions env newOptions opts = .ok ops →
      ops.iface = some iface →
      resolveSourceIP dstIP iface ops.sourceIP = .ok srcIP →
      world.openResult = .ok () →
      world.timerWins = true →
      PingWithOptions env world dstIP opts =
        ⟨none, 0, some .errTimeout, true, 2, 1,
          (workerResult (newArpRequest iface.hardwareAddr srcIP broadcastMac dstIP)
            world.sendResult world.recvEvents).2,
          some (newArpRequest iface.hardwareAddr srcIP broadcastMac dstIP)⟩) ∧
    (∀ env world dstIP opts, (PingWithOptions env world dstIP opts).opened = true →
      1 ≤ (PingWithOptions env world dstIP opts).closeCount) ∧
    newOptions.timeout = 500 * 1000000 := by
  refine ⟨?_, ?_, rfl⟩
  · intro env world dstIP opts ops iface srcIP hv hops hiface hsrc hopen htimer
    rw [pingWithOptions_wait_phase env world dstIP opts ops iface srcIP hv hops hiface hsrc hopen]
    unfold pingAwait
    rw [htimer]
  · intro env world dstIP opts
    unfold PingWithOptions
    (repeat' split) <;> simp_all [PingOutcome.earlyErr, pingAwait_opened, pingAwait_closeCount_pos]

/-- C2 witness: the fixture world with the timer winning the race
returns the timeout triple with the session closed twice. -/
theorem ping_timeout_returns_errTimeout_witness :
    PingWithOptions wEnv { wWorld with timerWins := true } wDstIP wOpts =
      ⟨none, 0, some .errTimeout, true, 2, 1, 2, some wRequest⟩ := by
  have h := ping_timeout_returns_errTimeout.1 wEnv { wWorld with timerWins := true } wDstIP
    wOpts wOps wIfaceEth0 wSrcIP rfl rfl rfl rfl rfl rfl
  exact h.trans (by decide)

/-- C9: each public operation performs its send step at most once per
call — exactly once when the path reaches it (the session opened),
zero times otherwise — and a send failure is returned directly to the
caller. -/
theorem one_send_per_call :
    (∀ env world dstIP opts,
      (PingWithOptions env world dstIP opts).sendCount =
        (if (PingWithOptions env world dstIP opts).opened = true then 1 else 0)) ∧
    (∀ env world dstIP,
      (Ping env world dstIP).sendCount =
        (if (Ping env world dstIP).opened = true then 1 else 0)) ∧
    (∀ env world opts,
      (GratuitousArpWithOptions env world opts).sendCount =
        (if (GratuitousArpWithOptions env world opts).opened = true then 1 else 0)) ∧
    (∀ env world srcIP,
      (GratuitousArp env world srcIP).sendCount =
        (if (GratuitousArp env world srcIP).opened = true then 1 else 0)) ∧
    (∀ env world dstIP opts, (PingWithOptions env world dstIP opts).sendCount ≤ 1) ∧
    (∀ env world opts, (GratuitousArpWithOptions env world opts).sendCount ≤ 1) ∧
    (∀ env world dstIP opts ops iface srcIP e,
      validateIP dstIP = .ok () →
      applyOptions env newOptions opts = .ok ops →
      ops.iface = some iface →
      resolveSourceIP dstIP iface ops.sourceIP = .ok srcIP →
      world.openResult = .ok () →
      world.sendResult = .error e →
      world.timerWins = false →
      (PingWithOptions env world dstIP opts).err = some e) := by
  have hping : ∀ env world dstIP opts,
      (PingWithOptions env world dstIP opts).sendCount =
        (if (PingWithOptions env world dstIP opts).opened = true then 1 else 0) := by
    intro env world dstIP opts
    unfold PingWithOptions
    (repeat' split) <;> simp_all [PingOutcome.earlyErr, pingAwait_opened, pingAwait_sendCount]
  have hgrat : ∀ env world opts,
      (GratuitousArpWithOptions env world opts).sendCount =
        (if (GratuitousArpWithOptions env world opts).opened = true then 1 else 0) := by
    intro env world opts
    unfold GratuitousArpWithOptions gratFromOps
    (repeat' split) <;> simp_all [GratOutcome.earlyErr]
  refine ⟨hping, ?_, hgrat, ?_, ?_, ?_, ?_⟩
  · intro env world dstIP
    unfold Ping PingOverIface
    (repeat' split) <;> simp_all [PingOutcome.earlyErr]
  · intro env world srcIP
    exact hgrat env world [WithSourceIP srcIP]
  · intro env world dstIP opts
    rw [hping env world dstIP opts]
    split <;> simp
  · intro env world opts
    rw [hgrat env world opts]
    split <;> simp
  · intro env world dstIP opts ops iface srcIP e hv hops hiface hsrc hopen hsend htimer
    rw [pingWithOptions_wait_phase env world dstIP opts ops iface srcIP hv hops hiface hsrc hopen]
    unfold pingAwait
    rw [htimer, hsend]
    rfl

/-- C9 witness: on the fixture world whose send fails, the error is
returned to the caller and exactly one send was attempted. -/
theorem one_send_per_call_witness :
    (PingWithOptions wEnv wWorldSendFail wDstIP wOpts).err =
      some (.transportError "sendto: operation not permitted") ∧
    (PingWithOptions wEnv wWorldSendFail wDstIP wOpts).sendCount = 1 := by
  constructor
  · exact one_send_per_call.2.2.2.2.2.2 wEnv wWorldSendFail wDstIP wOpts wOps wIfaceEth0
      wSrcIP _ rfl rfl rfl rfl rfl rfl rfl
  · exact (one_send_per_call.1 wEnv wWorldSendFail wDstIP wOpts).trans (by decide)

/-- C4: every gratuitous announce that reaches the send step built a
datagram whose sender and target protocol addresses both equal the
announced source address and whose target hardware address is the
broadcast address; the datagram is sent exactly once; and the call
never enters a receive or wait phase — its outcome is independent of
the receive events and of the timer. -/
theorem gratuitous_announce_shape :
    (∀ env world opts ops iface,
      applyOptions env newOptions opts = .ok ops →
      validateIP ops.sourceIP = .ok () →
      resolveGratIface env ops = .ok iface →
      world.openResult = .ok () →
      GratuitousArpWithOptions env world opts =
        ⟨(match world.sendResult with | .error e => some e | .ok _ => none), true, 1, 1,
          some (newArpRequest iface.hardwareAddr ops.sourceIP broadcastMac ops.sourceIP)⟩ ∧
        (newArpRequest iface.hardwareAddr ops.sourceIP broadcastMac ops.sourceIP).senderIp =
          ops.sourceIP ∧
        (newArpRequest iface.hardwareAddr ops.sourceIP broadcastMac ops.sourceIP).targetIp =
          ops.sourceIP ∧
        (newArpRequest iface.hardwareAddr ops.sourceIP broadcastMac ops.sourceIP).targetMac =
          broadcastMac) ∧
    (∀ env world₁ world₂ opts, world₁.openResult = world₂.openResult →
      world₁.sendResult = world₂.sendResult →
      GratuitousArpWithOptions env world₁ opts = GratuitousArpWithOptions env world₂ opts) := by
  constructor
  · intro env world opts ops iface hops hvalid hiface hopen
    refine ⟨?_, rfl, rfl, rfl⟩
    simp only [GratuitousArpWithOptions, hops, gratFromOps, hvalid, hiface, hopen]
    cases hs : world.sendResult <;> rfl
  · intro env world₁ world₂ opts h1 h2
    unfold GratuitousArpWithOptions
    cases hops : applyOptions env newOptions opts with
    | error e => rfl
    | ok ops =>
      unfold gratFromOps
      rw [h1, h2]

/-- C4 witness: a concrete announce of 192.168.1.7 over the fixture
interface builds the sender=target=source broadcast datagram and sends
it once with no error. -/
theorem gratuitous_announce_shape_witness :
    GratuitousArpWithOptions wEnv wWorld [WithSourceIP [192, 168, 1, 7], WithIface wIfaceEth0] =
      ⟨none, true, 1, 1,
        some (newArpRequest wIfaceEth0.hardwareAddr [192, 168, 1, 7] broadcastMac
          [192, 168, 1, 7])⟩ := by
  have h := (gratuitous_announce_shape.1 wEnv wWorld
    [WithSourceIP [192, 168, 1, 7], WithIface wIfaceEth0]
    ⟨some wIfaceEth0, [192, 168, 1, 7], timeoutGlobal⟩ wIfaceEth0 rfl rfl rfl rfl).1
  exact h.trans (by decide)

/-- The option fold never reads the enumeration field of the
environment: only the name-lookup table matters. -/
theorem applyOptions_interfaces_irrelevant (env₁ env₂ : Env)
    (h : env₁.interfacesByName = env₂.interfacesByName) :
    ∀ (l : List OptionDirective) (st : Options),
      applyOptions env₁ st l = applyOptions env₂ st l := by
  intro l
  induction l with
  | nil => intro st; rfl
  | cons o rest ih =>
    intro st
    rw [applyOptions_cons, applyOptions_cons]
    have ho : applyOption env₁ o st = applyOption env₂ o st := by
      cases o with
      | ifaceName n => simp only [applyOption, interfaceByName, h]
      | netInterface i => rfl
      | netIP ip => rfl
      | duration d => rfl
    rw [ho]
    cases applyOption env₂ o st with
    | error e => rfl
    | ok st' => exact ih st'

/-- C7: `PingWithOptions` never performs destination-based interface
selection — its outcome is independent of the interface enumeration;
without an interface directive it fails with the no-usable-interface
error; destination-based selection happens only in `Ping` before
delegating; and with an explicit interface, only the source address is
derived from that interface, and only when none was supplied. -/
theorem pingWithOptions_no_scan :
    (∀ env₁ env₂ world dstIP opts, env₁.interfacesByName = env₂.interfacesByName →
      PingWithOptions env₁ world dstIP opts = PingWithOptions env₂ world dstIP opts) ∧
    (∀ env world dstIP opts ops, validateIP dstIP = .ok () →
      applyOptions env newOptions opts = .ok ops → ops.iface = none →
      PingWithOptions env world dstIP opts = .earlyErr .errNoUsableInterface) ∧
    (∀ env world dstIP iface, validateIP dstIP = .ok () →
      findUsableInterfaceForNetwork dstIP env.interfaces = .ok iface →
      Ping env world dstIP = PingWithOptions env world dstIP [WithIface iface]) ∧
    (∀ dstIP iface, resolveSourceIP dstIP iface [] = findIpInNetworkFromIface dstIP iface) ∧
    (∀ dstIP iface (src : GoIP), src.length ≠ 0 → resolveSourceIP dstIP iface src = .ok src) := by
  refine ⟨?_, ?_, ?_, ?_, ?_⟩
  · intro env₁ env₂ world dstIP opts h
    unfold PingWithOptions
    rw [applyOptions_interfaces_irrelevant env₁ env₂ h opts newOptions]
  · intro env world dstIP opts ops hv hops hnone
    simp only [PingWithOptions, hv, hops, hnone]
  · intro env world dstIP iface hv hscan
    simp only [Ping, hv, hscan, PingOverIface]
  · intro dstIP iface
    rfl
  · intro dstIP iface src h
    unfold resolveSourceIP
    rw [if_neg h]

/-- C7 witness: with no interface directive the call fails with the
no-usable-interface error, and replacing the enumeration outcome by a
failure does not change the result of an explicit-interface call. -/
theorem pingWithOptions_no_scan_witness :
    PingWithOptions wEnv wWorld wDstIP [] = .earlyErr .errNoUsableInterface ∧
    PingWithOptions ⟨wEnv.interfacesByName, .error (.transportError "enumeration failed")⟩
        wWorld wDstIP wOpts =
      PingWithOptions wEnv wWorld wDstIP wOpts := by
  constructor
  · exact pingWithOptions_no_scan.2.1 wEnv wWorld wDstIP [] newOptions rfl rfl rfl
  · exact pingWithOptions_no_scan.1 _ wEnv wWorld wDstIP wOpts rfl

/-- Agreement of two draft configurations on everything the announce
path reads: the interface and the source address (not the timeout). -/
def OptionsAgree (a b : Options) : Prop :=
  a.iface = b.iface ∧ a.sourceIP = b.sourceIP

/-- Lifting of `OptionsAgree` to fold outcomes: same error, or
agreeing configurations. -/
def ExceptOptionsAgree : Except GoError Options → Except GoError Options → Prop
  | .error e, .error e' => e = e'
  | .ok a, .ok b => OptionsAgree a b
  | _, _ => False

/-- One directive preserves agreement: no directive reads the timeout
field, and each writes the same value to both drafts. -/
theorem applyOption_agree (env : Env) (o : OptionDirective) (a b : Options)
    (h : OptionsAgree a b) :
    ExceptOptionsAgree (applyOption env o a) (applyOption env o b) := by
  obtain ⟨h1, h2⟩ := h
  cases o with
  | ifaceName n =>
    show ExceptOptionsAgree
      (match interfaceByName env n with
        | Except.error e => Except.error e
        | Except.ok i => Except.ok { a with iface := some i })
      (match interfaceByName env n with
        | Except.error e => Except.error e
        | Except.ok i => Except.ok { b with iface := some i })
    cases interfaceByName env n with
    | error e => exact rfl
    | ok i => exact ⟨rfl, h2⟩
  | netInterface i => exact ⟨rfl, h2⟩
  | netIP ip => exact ⟨h1, rfl⟩
  | duration d => exact ⟨h1, h2⟩

/-- The whole fold preserves agreement. -/
theorem applyOptions_agree (env : Env) :
    ∀ (l : List OptionDirective) (a b : Options), OptionsAgree a b →
      ExceptOptionsAgree (applyOptions env a l) (applyOptions env b l) := by
  intro l
  induction l with
  | nil => intro a b h; exact h
  | cons o rest ih =>
    intro a b h
    rw [applyOptions_cons, applyOptions_cons]
    have hstep := applyOption_agree env o a b h
    cases ha : applyOption env o a with
    | error e =>
      cases hb : applyOption env o b with
      | error e' =>
        rw [ha, hb] at hstep
        have he : e = e' := hstep
        rw [he]
        exact rfl
      | ok b' =>
        rw [ha, hb] at hstep
        exact hstep.elim
    | ok a' =>
      cases hb : applyOption env o b with
      | error e' =>
        rw [ha, hb] at hstep
        exact hstep.elim
      | ok b' =>
        rw [ha, hb] at hstep
        exact ih a' b' hstep

/-- The announce body reads only the interface and source-address
fields of the configuration. -/
theorem gratFromOps_agree (env : Env) (world : SockWorld) (a b : Options)
    (h : OptionsAgree a b) :
    gratFromOps env world a = gratFromOps env world b := by
  obtain ⟨h1, h2⟩ := h
  unfold gratFromOps resolveGratIface
  rw [h1, h2]

/-- C8: the timeout option has no effect on the announce workflow: for
every option list, inserting a `WithTimeout` directive anywhere leaves
the result of `GratuitousArpWithOptions` unchanged, because the
announce path never reads the resolved timeout field. -/
theorem gratuitous_ignores_timeout (env : Env) (world : SockWorld)
    (l₁ l₂ : List OptionDirective) (d : GoDuration) :
    GratuitousArpWithOptions env world (l₁ ++ WithTimeout d :: l₂) =
      GratuitousArpWithOptions env world (l₁ ++ l₂) := by
  unfold GratuitousArpWithOptions
  rw [applyOptions_append, applyOptions_append]
  cases h : applyOptions env newOptions l₁ with
  | error e => rfl
  | ok o =>
    show (match applyOptions env { o with timeout := d } l₂ with
          | Except.error e => GratOutcome.earlyErr e
          | Except.ok ops => gratFromOps env world ops) =
        (match applyOptions env o l₂ with
          | Except.error e => GratOutcome.earlyErr e
          | Except.ok ops => gratFromOps env world ops)
    have hAg := applyOptions_agree env l₂ { o with timeout := d } o ⟨rfl, rfl⟩
    cases hx : applyOptions env { o with timeout := d } l₂ with
    | error e =>
      cases hy : applyOptions env o l₂ with
      | error e' =>
        rw [hx, hy] at hAg
        have he : e = e' := hAg
        rw [he]
      | ok b =>
        rw [hx, hy] at hAg
        exact hAg.elim
    | ok a =>
      cases hy : applyOptions env o l₂ with
      | error e' =>
        rw [hx, hy] at hAg
        exact hAg.elim
      | ok b =>
        rw [hx, hy] at hAg
        exact gratFromOps_agree env world a b hAg

/-- C8 witness: the theorem applied to a concrete announce (source
192.168.1.7, timeout 42 inserted) gives equal outcomes. -/
theorem gratuitous_ignores_timeout_witness :
    GratuitousArpWithOptions wEnv wWorld
        ([WithSourceIP [192, 168, 1, 7]] ++ WithTimeout 42 :: [WithIface wIfaceEth0]) =
      GratuitousArpWithOptions wEnv wWorld
        ([WithSourceIP [192, 168, 1, 7]] ++ [WithIface wIfaceEth0]) :=
  gratuitous_ignores_timeout wEnv wWorld [WithSourceIP [192, 168, 1, 7]] [WithIface wIfaceEth0] 42

/-- The receive events delivered after the coordinator closed the
session: a closed raw socket makes every blocking receive fail. -/
def wClosedEvents : List (Except GoError (ArpDatagram × GoTime)) :=
  [.ok (wRequest, 1500), .error (.transportError "receive: use of closed network connection")]

/-- C10: the result channel is the single-slot buffered channel of the
source, the worker performs at most one channel send — so it can
deliver without a reader and never blocks forever — and once the
receive stream fails (as it does when the session is closed after a
timeout) the worker reaches a terminal state, consuming no more
receive calls than there are events: no orphaned blocked worker
remains. -/
theorem worker_terminates_after_close :
    pingResultChanCapacity = 1 ∧
    (∀ request sendRes events,
      workerChanSends (workerResult request sendRes events).1 ≤ pingResultChanCapacity) ∧
    (∀ request t0 events e, Except.error e ∈ events →
      ((workerLoop request t0 events).1.isSome = true ∧
        (workerLoop request t0 events).2 ≤ events.length)) := by
  refine ⟨rfl, ?_, ?_⟩
  · intro request sendRes events
    cases sendRes with
    | error e => exact le_refl 1
    | ok t0 =>
      show workerChanSends (workerLoop request t0 events).1 ≤ 1
      cases h : (workerLoop request t0 events).1 with
      | none => exact Nat.zero_le 1
      | some r => exact le_refl 1
  · intro request t0 events e
    induction events with
    | nil => intro h; simp at h
    | cons ev rest ih =>
      intro h
      cases ev with
      | error e' =>
        exact ⟨rfl, Nat.succ_le_succ (Nat.zero_le _)⟩
      | ok p =>
        obtain ⟨d, t⟩ := p
        have hmem : Except.error e ∈ rest := by
          rcases List.mem_cons.mp h with h' | h'
          · exact absurd h' (by simp)
          · exact h'
        by_cases hr : d.IsResponseOf request = true
        · constructor
          · show (workerLoop request t0 (.ok (d, t) :: rest)).1.isSome = true
            unfold workerLoop
            rw [if_pos hr]
            rfl
          · show (workerLoop request t0 (.ok (d, t) :: rest)).2 ≤ rest.length + 1
            unfold workerLoop
            rw [if_pos hr]
            exact Nat.succ_le_succ (Nat.zero_le _)
        · obtain ⟨ih1, ih2⟩ := ih hmem
          constructor
          · show (workerLoop request t0 (.ok (d, t) :: rest)).1.isSome = true
            unfold workerLoop
            rw [if_neg hr]
            exact ih1
          · show (workerLoop request t0 (.ok (d, t) :: rest)).2 ≤ rest.length + 1
            unfold workerLoop
            rw [if_neg hr]
            exact Nat.succ_le_succ ih2

/-- C10 witness: after one foreign datagram the stream fails with the
closed-connection error; the worker terminates within the two events
with a delivered result. -/
theorem worker_terminates_after_close_witness :
    (workerLoop wRequest 1000 wClosedEvents).1.isSome = true ∧
    (workerLoop wRequest 1000 wClosedEvents).2 ≤ wClosedEvents.length :=
  worker_terminates_after_close.2.2 wRequest 1000 wClosedEvents
    (.transportError "receive: use of closed network connection") (by decide)

end Arping
